import Mathlib

/-!
Shallow embedding of `whids.go` (WHIDS 1.1, package main), the single source
file of this repository.  Pure and sequential parts of the program are
translated as Lean functions; the setup phase of `main` is translated as a
function producing the ordered trace of its externally visible actions; the
stop-token broadcast (unbuffered Go channel rendezvous) and the
unsynchronized counter increments are translated as small-step transition
systems.  External dependencies (the gene rule engine, wevtapi event
subscription, the JSON codec, fsutil) are opaque: their results appear as
data (fields or function parameters), never reimplemented.
-/

namespace Whids

/-! ### Format adapter: `XMLEventToGoEvtxMap` (whids.go lines 32-43) -/

/-- `evtx.GoEvtxMap` is an opaque key/value document; the core never looks
inside it, so we model it as an association list. -/
abbrev GoEvtxMap := List (String × String)

/-- Embedding of `XMLEventToGoEvtxMap` (whids.go:32-43).  The JSON codec is
external, so `marshalJSON` (for `json.Marshal(xe.ToJSONEvent())`) and
`unmarshalJSON` (for `json.Unmarshal(bytes, &ge)`, which may leave the map
partially populated next to an error) are parameters.  The Go function
returns a pointer `*evtx.GoEvtxMap`; we model the pointer as
`Option GoEvtxMap`, `none` standing for a nil pointer.  In every branch the
source returns `&ge`, never nil. -/
def XMLEventToGoEvtxMap {α β : Type} (marshalJSON : α → Except String β)
    (unmarshalJSON : β → GoEvtxMap → GoEvtxMap × Option String) (xe : α) :
    Option GoEvtxMap × Option String :=
  let ge : GoEvtxMap := []
  match marshalJSON xe with
  | Except.error err => (some ge, some err)
  | Except.ok bs =>
    match unmarshalJSON bs ge with
    | (ge2, some err) => (some ge2, some err)
    | (ge2, none) => (some ge2, none)

/-! ### Channel alias resolution (whids.go lines 81-84 and 234-236) -/

/-- ASCII lower-casing of one character, the behaviour of Go's
`strings.ToLower` on the ASCII channel names involved. -/
def lowerChar (c : Char) : Char :=
  if 'A' ≤ c ∧ c ≤ 'Z' then Char.ofNat (c.toNat + 32) else c

/-- `strings.ToLower` restricted to ASCII input. -/
def lowerStr (s : String) : String := String.mk (s.data.map lowerChar)

/-- The fixed alias table `channelAliases` (whids.go:81-84). -/
def channelAliases : List (String × String) :=
  [("sysmon", "Microsoft-Windows-Sysmon/Operational"), ("security", "Security")]

/-- Go map lookup `channelAliases[k]` returning the value and its `ok` flag
collapsed into an `Option`. -/
def lookupAlias (k : String) : Option String :=
  (channelAliases.find? (fun p => p.fst == k)).map Prod.snd

/-- Embedding of the alias resolution at whids.go:234-236:
`if c, ok := channelAliases[strings.ToLower(winChan)]; ok { winChan = c }`. -/
def resolveChannel (winChan : String) : String :=
  match lookupAlias (lowerStr winChan) with
  | some c => c
  | none => winChan

/-! ### Rule file discovery and loading (whids.go lines 85, 163-199) -/

/-- `filepath.Ext` on the trailing path element: the suffix beginning at the
final dot, empty when there is no dot.  Helper on the character list. -/
def extAux : List Char → Option (List Char)
  | [] => none
  | c :: rest =>
    match extAux rest with
    | some e => some e
    | none => if c = '.' then some (c :: rest) else none

/-- `filepath.Ext(name)` for a base file name. -/
def fileExt (name : String) : String :=
  match extAux name.data with
  | some e => String.mk e
  | none => ""

/-- `ruleExts` (whids.go:85): the allow-set of rule file extensions. -/
def ruleExts : List String := [".gen", ".gene"]

/-- Membership test of `setRuleExts` (whids.go:163-166, 188), the synced set
built from `ruleExts`. -/
def ruleExtsContains (e : String) : Bool := ruleExts.contains e

/-- One rule file as the walk sees it: its base name, whether the engine's
`Load` succeeds on it, and how many rules it defines (the engine's count is
cumulative over loaded rules; the engine itself is external, so both facts
are data). -/
structure RuleFile where
  name : String
  parses : Bool
  nRules : Nat
deriving DecidableEq

/-- The opaque gene engine, reduced to the one observable the core reports:
`e.Count()`. -/
structure Engine where
  count : Nat
deriving DecidableEq

/-- Whether a file's extension is in the allow-set (whids.go:188). -/
def allowedFile (f : RuleFile) : Bool := ruleExtsContains (fileExt f.name)

/-- Accumulated result of the directory walk at whids.go:181-195: the engine
state and the list of file names actually passed to `e.Load`. -/
structure LoadResult where
  engine : Engine
  passed : List String
deriving DecidableEq

/-- One iteration of the inner walk loop (whids.go:183-194): skip the file
unless its extension is allow-listed, otherwise pass it to `e.Load`; a parse
failure is logged and changes nothing in the engine. -/
def loadStep (r : LoadResult) (f : RuleFile) : LoadResult :=
  if allowedFile f then
    if f.parses then
      { engine := { count := r.engine.count + f.nRules }, passed := r.passed ++ [f.name] }
    else
      { engine := r.engine, passed := r.passed ++ [f.name] }
  else r

/-- The whole directory walk (whids.go:181-195).  `fswalker.Walk` enumerates
every contained file recursively; the recursive enumeration is the flat
list `files`. -/
def loadDirectory (eng : Engine) (files : List RuleFile) : LoadResult :=
  files.foldl loadStep { engine := eng, passed := [] }

/-! ### The setup phase of `main` (whids.go lines 146-238) as an action trace -/

/-- Externally visible actions of `main`'s setup phase, in program order.
`fatalExit` is `log.LogErrorAndExit(err, code)`: the process terminates, so
nothing ever follows it in a trace. -/
inductive Action where
  | fatalExit (msg : String) (code : Nat)
  | newEngine
  | setFilters (names : List String) (tags : List String)
  | loadFile (name : String)
  | logError (msg : String)
  | subscribe (channel : String)
deriving DecidableEq

/-- What `fsutil.ResolveLink` + `fsutil.IsFile` / `fsutil.IsDir` determine
for the rule path (whids.go:169-198).  `fsutil` is an external library;
per its contract a nonexistent path resolves but is neither file nor
directory, landing in the `default` branch of the switch. -/
inductive FsResolution where
  | file (f : RuleFile)
  | dir (files : List RuleFile)
  | unresolvable
deriving DecidableEq

/-- The configuration `main` works from once flags are parsed: `rulesPath`
(`-r`), the `names` and `tags` filter lists, what the rule path resolves
to, and the requested channels (`-c`). -/
structure Config where
  rulesPath : String
  names : List String
  tags : List String
  fs : FsResolution
  channels : List String
deriving DecidableEq

/-- Actions of loading one rule file (whids.go:177-180 and 189-192): the
load attempt, then an error log line when parsing fails.  In the
single-file branch the source logs the bare engine error and in the
directory branch `Error loading <file>: <err>`; both are rendered here as
one error line naming the file. -/
def fileLoadActions (f : RuleFile) : List Action :=
  Action.loadFile f.name ::
    (if f.parses then [] else [Action.logError ("Error loading " ++ f.name)])

/-- Actions of the directory walk (whids.go:181-195): only allow-listed
extensions reach `e.Load`. -/
def loadDirActions : List RuleFile → List Action
  | [] => []
  | f :: rest =>
    (if allowedFile f then fileLoadActions f else []) ++ loadDirActions rest

/-- The per-channel subscriptions opened by the worker goroutines
(whids.go:231-238), after alias resolution. -/
def subscribeActions (channels : List String) : List Action :=
  channels.map (fun c => Action.subscribe (resolveChannel c))

/-- Embedding of `main`'s setup phase (whids.go:146-238) as its ordered
action trace: the empty-rule-path check (147-149), `engine.NewEngine`
(152), the mutually-exclusive tags/names validation (158-160),
`e.SetFilters` (161), the file/dir/default switch on the resolved rule
path (175-198), then the source subscriptions (231-238).  A
`log.LogErrorAndExit` terminates the process, so the trace stops at the
corresponding `fatalExit`. -/
def mainSetup (cfg : Config) : List Action :=
  if cfg.rulesPath = "" then
    [Action.fatalExit "No rule file to load" 1]
  else
    Action.newEngine ::
      (if 0 < cfg.tags.length ∧ 0 < cfg.names.length then
        [Action.fatalExit "Cannot search by tags and names at the same time" 1]
      else
        Action.setFilters cfg.names cfg.tags ::
          (match cfg.fs with
          | FsResolution.file f => fileLoadActions f ++ subscribeActions cfg.channels
          | FsResolution.dir files => loadDirActions files ++ subscribeActions cfg.channels
          | FsResolution.unresolvable =>
            [Action.fatalExit ("Cannot resolve " ++ cfg.rulesPath ++ " to file or dir") 1]))

/-! ### The worker event loop (whids.go lines 239-252) -/

/-- One raw event as the worker loop sees it, with the results the two
external calls produce for it: `convErr` is the error component of
`XMLEventToGoEvtxMap` (the returned map itself is never nil and is fed to
`e.Match` regardless), and `matchedNames` / `criticality` are the pair
`e.Match(event)` returns for that map.  `json` is the serialized form
`evtx.ToJSON(event)` printed when the event qualifies as an alert. -/
structure RawEvent where
  convErr : Option String
  matchedNames : List String
  criticality : Int
  json : String
deriving DecidableEq

/-- The worker-visible mutable state: the shared counters `eventCnt` and
`alertsCnt` (whids.go:203), the alert lines printed to stdout, and the
error log lines. -/
structure WorkerState where
  eventCnt : Nat
  alertsCnt : Nat
  output : List String
  errLog : List String
deriving DecidableEq

/-- Counters start at zero (whids.go:203). -/
def initWorkerState : WorkerState := { eventCnt := 0, alertsCnt := 0, output := [], errLog := [] }

/-- One iteration of the worker loop body (whids.go:239-252): a conversion
error is logged but does NOT skip the event - there is no `continue`, so
the (possibly partial) map is still matched; when the match returns at
least one rule name and `crit >= criticalityThresh` the event is printed
and `alertsCnt` incremented; `eventCnt` is incremented unconditionally. -/
def processEvent (criticalityThresh : Int) (s : WorkerState) (xe : RawEvent) : WorkerState :=
  let s1 :=
    match xe.convErr with
    | some err => { s with errLog := s.errLog ++ ["Failed to convert event: " ++ err] }
    | none => s
  let s2 :=
    if xe.matchedNames.length > 0 then
      if xe.criticality ≥ criticalityThresh then
        { s1 with output := s1.output ++ [xe.json], alertsCnt := s1.alertsCnt + 1 }
      else s1
    else s1
  { s2 with eventCnt := s2.eventCnt + 1 }

/-- The worker loop over the events a subscription delivers, in delivery
order (whids.go:239-252). -/
def processEvents (criticalityThresh : Int) (s : WorkerState) (events : List RawEvent) :
    WorkerState :=
  events.foldl (processEvent criticalityThresh) s

/-- A synthetic event that matches one rule with criticality 7. -/
def matchingEvent : RawEvent :=
  { convErr := none, matchedNames := ["mimikatz-detected"], criticality := 7, json := "alert-json" }

/-- A synthetic event producing no match. -/
def plainEvent : RawEvent :=
  { convErr := none, matchedNames := [], criticality := 0, json := "plain-json" }

/-- Scenario D of the spec: 10 events of which exactly 3 match a rule of
criticality 7. -/
def scenarioD : List RawEvent :=
  [matchingEvent, plainEvent, plainEvent, plainEvent, matchingEvent,
   plainEvent, plainEvent, matchingEvent, plainEvent, plainEvent]

/-- A synthetic event whose conversion failed but whose partially populated
map still matches a rule with criticality 7. -/
def badConvEvent : RawEvent :=
  { convErr := some "unexpected end of JSON input",
    matchedNames := ["suspicious-process"], criticality := 7, json := "bad-json" }

/-! ### Stop-token broadcast (whids.go lines 202-222 and 238)

`signals` is an unbuffered channel.  The deadline goroutine (206-211) and
the interrupt goroutine (217-222) each send one `true` token per
configured channel; each of the `n` workers performs exactly one blocking
receive on it (inside `wevtapi.GetAllEventsFromChannel`, whose contract is
to end the event sequence once a stop token is observed) and then
terminates.  On an unbuffered channel a send completes exactly when it is
paired with a receive, so the system is the rendezvous counting model
below. -/

/-- Broadcast state: `pa` / `pb` count the stop tokens the deadline and the
interrupt goroutine still have to send, `waiting` the workers still blocked
in their single receive, `done` the workers that have received their token
and exited. -/
structure BState where
  pa : Nat
  pb : Nat
  waiting : Nat
  done : Nat
deriving DecidableEq

/-- One rendezvous on the unbuffered `signals` channel: a pending send of
either broadcaster completes simultaneously with one waiting worker's
receive; that worker then terminates (it receives exactly once). -/
inductive BStep : BState → BState → Prop
  | timer (pa pb w d : Nat) :
    BStep { pa := pa + 1, pb := pb, waiting := w + 1, done := d }
      { pa := pa, pb := pb, waiting := w, done := d + 1 }
  | intr (pa pb w d : Nat) :
    BStep { pa := pa, pb := pb + 1, waiting := w + 1, done := d }
      { pa := pa, pb := pb, waiting := w, done := d + 1 }

/-- Reflexive-transitive closure of `BStep`. -/
inductive BReach : BState → BState → Prop
  | refl (s : BState) : BReach s s
  | tail {s t u : BState} : BReach s t → BStep t u → BReach s u

/-- Initial broadcast state with `n` active workers: a trigger that fired
has `n` tokens to send (`for _ = range windowsChannels { signals <- true }`),
a trigger that did not fire has none. -/
def initBroadcast (n : Nat) (ta tb : Bool) : BState :=
  { pa := if ta then n else 0, pb := if tb then n else 0, waiting := n, done := 0 }

/-- A state where no rendezvous can happen any more: every pending send is
blocked forever, every waiting worker would be starved. -/
def BTerminal (s : BState) : Prop := ∀ t, ¬ BStep s t

/-! ### Unsynchronized counter increments (whids.go lines 203, 245-251)

`eventCnt++` and `alertsCnt++` execute in `n` worker goroutines with no
atomic operation and no lock.  An increment of a shared Go variable is a
read of the current value followed by a write of read-value + 1, and the
goroutine scheduler may interleave the two halves of different workers.
The model below runs one shared counter and per-worker programs of `k`
such two-phase increments under an explicit schedule. -/

/-- A worker incrementing the shared counter: `temp` holds the value read
but not yet written back (the middle of an `++`), `remaining` the number of
increments (events) left. -/
structure RWorker where
  temp : Option Nat
  remaining : Nat
deriving DecidableEq

/-- Shared counter plus the per-worker registers. -/
structure RaceState where
  counter : Nat
  workers : List RWorker
deriving DecidableEq

/-- One scheduler step of worker `i`: with no pending read it reads the
shared counter (if it still has increments to do); with a pending read it
writes back read-value + 1 and completes that increment. -/
def raceStepAt (s : RaceState) (i : Nat) : RaceState :=
  match s.workers.get? i with
  | none => s
  | some w =>
    match w.temp with
    | none =>
      if w.remaining > 0 then
        { counter := s.counter,
          workers := s.workers.set i { temp := some s.counter, remaining := w.remaining } }
      else s
    | some t =>
      { counter := t + 1,
        workers := s.workers.set i { temp := none, remaining := w.remaining - 1 } }

/-- Run a schedule (a list of worker indices) from a state. -/
def raceRun (s : RaceState) (sched : List Nat) : RaceState :=
  sched.foldl raceStepAt s

/-- Initial race state: counter 0, `n` workers with `k` increments each. -/
def initRace (n k : Nat) : RaceState :=
  { counter := 0, workers := List.replicate n { temp := none, remaining := k } }

/-! ### Concrete configurations used to evaluate the claims -/

/-- Scenario B of the spec: both filter lists non-empty. -/
def conflictCfg : Config :=
  { rulesPath := "rules", names := ["T1003"], tags := ["persistence"],
    fs := FsResolution.unresolvable, channels := ["sysmon"] }

/-- Scenario C of the spec: the rule path points to a nonexistent location. -/
def badPathCfg : Config :=
  { rulesPath := "/nonexistent/rules", names := [], tags := [],
    fs := FsResolution.unresolvable, channels := ["sysmon"] }

/-- No `-r` flag at all: `rulesPath` stays empty. -/
def emptyPathCfg : Config :=
  { rulesPath := "", names := [], tags := [],
    fs := FsResolution.unresolvable, channels := [] }

/-- A rule directory where the middle allow-listed file fails to parse. -/
def bestEffortCfg : Config :=
  { rulesPath := "rules", names := [], tags := [],
    fs := FsResolution.dir
      [{ name := "a.gen", parses := true, nRules := 1 },
       { name := "broken.gen", parses := false, nRules := 1 },
       { name := "b.gene", parses := true, nRules := 1 }],
    channels := ["security"] }

/-- Scenario A of the spec: `a.gen`, `b.gene`, `c.txt`, each defining one
valid rule. -/
def scenarioA : List RuleFile :=
  [{ name := "a.gen", parses := true, nRules := 1 },
   { name := "b.gene", parses := true, nRules := 1 },
   { name := "c.txt", parses := true, nRules := 1 }]

/-! ## Helper lemmas -/

/-- `eventCnt` is incremented by every loop iteration, whatever the
conversion and match outcomes. -/
lemma processEvent_eventCnt (t : Int) (s : WorkerState) (xe : RawEvent) :
    (processEvent t s xe).eventCnt = s.eventCnt + 1 := by
  simp only [processEvent]
  cases h : xe.convErr <;> split_ifs <;> rfl

/-- `alertsCnt` is incremented exactly when the match produced at least one
rule name and the criticality reaches the threshold. -/
lemma processEvent_alertsCnt (t : Int) (s : WorkerState) (xe : RawEvent) :
    (processEvent t s xe).alertsCnt =
      if 0 < xe.matchedNames.length ∧ xe.criticality ≥ t then s.alertsCnt + 1
      else s.alertsCnt := by
  simp only [processEvent]
  cases h : xe.convErr <;> split_ifs <;> simp_all

/-- A conversion error appends exactly one line to the error log. -/
lemma processEvent_errLog (t : Int) (s : WorkerState) (xe : RawEvent) (err : String)
    (h : xe.convErr = some err) :
    (processEvent t s xe).errLog = s.errLog ++ ["Failed to convert event: " ++ err] := by
  simp only [processEvent, h]
  split_ifs <;> rfl

/-! ## Claims -/

/-- C1: an event delivered to a worker contributes to `alertsCnt` if and
only if the match result has at least one matched rule name and its
criticality is at least the configured threshold, and it contributes to
`eventCnt` unconditionally; on the spec's Scenario D stream (threshold 5,
exactly 3 of 10 events matching a rule of criticality 7) the final counts
are `eventCnt = 10` and `alertsCnt = 3`. -/
theorem alert_iff_match_and_threshold :
    (∀ (criticalityThresh : Int) (s : WorkerState) (xe : RawEvent),
      (processEvent criticalityThresh s xe).eventCnt = s.eventCnt + 1 ∧
      ((processEvent criticalityThresh s xe).alertsCnt = s.alertsCnt + 1 ↔
        xe.matchedNames ≠ [] ∧ xe.criticality ≥ criticalityThresh)) ∧
    (processEvents 5 initWorkerState scenarioD).eventCnt = 10 ∧
    (processEvents 5 initWorkerState scenarioD).alertsCnt = 3 := by
  refine ⟨fun t s xe => ⟨processEvent_eventCnt t s xe, ?_⟩, by decide, by decide⟩
  rw [processEvent_alertsCnt]
  constructor
  · intro h
    by_cases hc : 0 < xe.matchedNames.length ∧ xe.criticality ≥ t
    · exact ⟨List.length_pos.mp hc.1, hc.2⟩
    · rw [if_neg hc] at h
      omega
  · rintro ⟨h1, h2⟩
    rw [if_pos ⟨List.length_pos.mpr h1, h2⟩]

/-- C2 counterexample: `badConvEvent` fails conversion (`convErr` is set),
yet the worker loop body (which has no `continue` after logging the
conversion error, whids.go:241-244) still matches the partially populated
map and raises an alert: `alertsCnt` goes from 0 to 1 and the event is
printed, refuting "it is never matched against the rules and can never
increment alertCount". -/
theorem conversion_failure_still_alerts :
    badConvEvent.convErr ≠ none ∧
    (processEvent 5 initWorkerState badConvEvent).alertsCnt = 1 ∧
    (processEvent 5 initWorkerState badConvEvent).output = ["bad-json"] := by
  decide

/-- C2 (amended): when conversion of a raw event fails, the error is
logged, the event still counts toward `eventCnt`, and the worker continues
with the remaining events of its stream; however the (possibly partial)
converted map is still handed to the rule engine, so the event raises an
alert exactly under the usual match-and-threshold condition rather than
being dropped from alerting. -/
theorem conversion_failure_logged_counted_continues
    (criticalityThresh : Int) (s : WorkerState) (xe : RawEvent) (rest : List RawEvent)
    (err : String) (h : xe.convErr = some err) :
    (processEvent criticalityThresh s xe).errLog
      = s.errLog ++ ["Failed to convert event: " ++ err] ∧
    (processEvent criticalityThresh s xe).eventCnt = s.eventCnt + 1 ∧
    (processEvent criticalityThresh s xe).alertsCnt =
      (if 0 < xe.matchedNames.length ∧ xe.criticality ≥ criticalityThresh
       then s.alertsCnt + 1 else s.alertsCnt) ∧
    processEvents criticalityThresh s (xe :: rest)
      = processEvents criticalityThresh (processEvent criticalityThresh s xe) rest :=
  ⟨processEvent_errLog criticalityThresh s xe err h,
   processEvent_eventCnt criticalityThresh s xe,
   processEvent_alertsCnt criticalityThresh s xe, rfl⟩

/-- C2 witness: the amended statement evaluated on `badConvEvent`. -/
theorem conversion_failure_logged_counted_continues_witness :
    badConvEvent.convErr = some "unexpected end of JSON input" ∧
    (processEvent 5 initWorkerState badConvEvent).errLog
      = ["Failed to convert event: unexpected end of JSON input"] ∧
    (processEvent 5 initWorkerState badConvEvent).eventCnt = 1 := by
  have h := conversion_failure_logged_counted_continues 5 initWorkerState badConvEvent []
    "unexpected end of JSON input" rfl
  exact ⟨rfl, by simpa using h.1, by simpa using h.2.1⟩

/-- C10: `XMLEventToGoEvtxMap` returns a non-nil map pointer on every path,
also when the JSON marshal or unmarshal step fails: each `return` in
whids.go:32-43 yields `&ge`. -/
theorem XMLEventToGoEvtxMap_never_nil {α β : Type}
    (marshalJSON : α → Except String β)
    (unmarshalJSON : β → GoEvtxMap → GoEvtxMap × Option String) (xe : α) :
    (XMLEventToGoEvtxMap marshalJSON unmarshalJSON xe).fst.isSome = true := by
  simp only [XMLEventToGoEvtxMap]
  cases marshalJSON xe with
  | error e => rfl
  | ok bs =>
    rcases h : unmarshalJSON bs [] with ⟨m, o⟩
    cases o <;> simp [h]

/-- C7: channel alias resolution (whids.go:234-236) is a pure total
function: any identifier lower-casing to a key of the alias table maps to
that key's fixed canonical channel, and any identifier whose lower-casing
is absent from the table is returned unchanged. -/
theorem resolveChannel_pure_total :
    (∀ s : String, lowerStr s = "sysmon" →
      resolveChannel s = "Microsoft-Windows-Sysmon/Operational") ∧
    (∀ s : String, lowerStr s = "security" → resolveChannel s = "Security") ∧
    (∀ s : String, lookupAlias (lowerStr s) = none → resolveChannel s = s) := by
  refine ⟨?_, ?_, ?_⟩ <;> intro s h <;> unfold resolveChannel <;> rw [h] <;> rfl

/-- C7 witness: a mixed-case known alias resolves to the canonical channel
and an unknown identifier passes through unchanged. -/
theorem resolveChannel_pure_total_witness :
    resolveChannel "SySmOn" = "Microsoft-Windows-Sysmon/Operational" ∧
    resolveChannel "Application" = "Application" :=
  ⟨resolveChannel_pure_total.1 "SySmOn" (by decide),
   resolveChannel_pure_total.2.2 "Application" (by decide)⟩

/-- C5 counterexample: with `names = ["T1003"]` and `tags = ["persistence"]`
both non-empty, the setup trace is `[newEngine, fatalExit ... 1]`: the
first action is `engine.NewEngine` (whids.go:152), which precedes the
fatal exit of the validation (whids.go:158-160), refuting "fails fatally
... before constructing ... the Rule Engine". -/
theorem filters_conflict_engine_constructed_first :
    mainSetup conflictCfg =
      [Action.newEngine,
       Action.fatalExit "Cannot search by tags and names at the same time" 1] ∧
    (mainSetup conflictCfg).head? = some Action.newEngine := by
  decide

/-- C5 (amended): if the names filter and the tags filter are both
non-empty (and a rule path is present, so setup reaches the validation),
the process fails fatally with exit code 1 immediately after the Rule
Engine object is constructed but before the engine is configured with
filters, before any rule is loaded, and before any source subscription is
opened: the whole trace is `[newEngine, fatalExit ... 1]`. -/
theorem filters_conflict_fatal_before_engine_use (cfg : Config)
    (h1 : cfg.names ≠ []) (h2 : cfg.tags ≠ []) (hp : cfg.rulesPath ≠ "") :
    mainSetup cfg =
      [Action.newEngine,
       Action.fatalExit "Cannot search by tags and names at the same time" 1] := by
  unfold mainSetup
  rw [if_neg hp, if_pos]
  exact ⟨List.length_pos.mpr h2, List.length_pos.mpr h1⟩

/-- C5 witness: the amended statement evaluated on `conflictCfg`. -/
theorem filters_conflict_fatal_before_engine_use_witness :
    mainSetup conflictCfg =
      [Action.newEngine,
       Action.fatalExit "Cannot search by tags and names at the same time" 1] :=
  filters_conflict_fatal_before_engine_use conflictCfg (by decide) (by decide) (by decide)

/-- C9: with no rule path the process exits with code 1 at once
(whids.go:147-149), and with a rule path resolving to neither file nor
directory it exits with code 1 carrying a message that names the
unresolved path verbatim (whids.go:196-198); in both traces no `loadFile`
and no `subscribe` action occurs, so monitoring never begins. -/
theorem fatal_config_exit_before_monitoring (cfg : Config) :
    (cfg.rulesPath = "" → mainSetup cfg = [Action.fatalExit "No rule file to load" 1]) ∧
    (cfg.rulesPath ≠ "" → ¬(0 < cfg.tags.length ∧ 0 < cfg.names.length) →
      cfg.fs = FsResolution.unresolvable →
      mainSetup cfg =
        [Action.newEngine, Action.setFilters cfg.names cfg.tags,
         Action.fatalExit ("Cannot resolve " ++ cfg.rulesPath ++ " to file or dir") 1]) := by
  constructor
  · intro hp
    unfold mainSetup
    rw [if_pos hp]
  · intro hp hft hfs
    unfold mainSetup
    rw [if_neg hp, if_neg hft, hfs]

/-- C9 witness: both fatal-configuration cases evaluated on concrete
configurations. -/
theorem fatal_config_exit_before_monitoring_witness :
    mainSetup emptyPathCfg = [Action.fatalExit "No rule file to load" 1] ∧
    mainSetup badPathCfg =
      [Action.newEngine, Action.setFilters [] [],
       Action.fatalExit "Cannot resolve /nonexistent/rules to file or dir" 1] := by
  refine ⟨(fatal_config_exit_before_monitoring emptyPathCfg).1 rfl, ?_⟩
  have h := (fatal_config_exit_before_monitoring badPathCfg).2 (by decide) (by decide) rfl
  simpa using h

end Whids

namespace Whids

/-- The walk-trace distributes over list append: the walk of the second
half proceeds unchanged after the first half. -/
lemma loadDirActions_append (xs ys : List RuleFile) :
    loadDirActions (xs ++ ys) = loadDirActions xs ++ loadDirActions ys := by
  induction xs with
  | nil => rfl
  | cons f rest ih => simp [loadDirActions, ih]

/-- Every action of one file's load is a `loadFile` or a `logError`. -/
lemma fileLoadActions_shape (f : RuleFile) :
    ∀ a ∈ fileLoadActions f,
      (∃ n, a = Action.loadFile n) ∨ (∃ m, a = Action.logError m) := by
  intro a ha
  by_cases hpar : f.parses <;> simp [fileLoadActions, hpar] at ha
  · exact Or.inl ⟨f.name, ha⟩
  · rcases ha with ha | ha
    · exact Or.inl ⟨f.name, ha⟩
    · exact Or.inr ⟨_, ha⟩

/-- Every action of the directory walk is a `loadFile` or a `logError`;
in particular the walk never exits the process. -/
lemma loadDirActions_shape (files : List RuleFile) :
    ∀ a ∈ loadDirActions files,
      (∃ n, a = Action.loadFile n) ∨ (∃ m, a = Action.logError m) := by
  induction files with
  | nil => intro a ha; simp [loadDirActions] at ha
  | cons f rest ih =>
    intro a ha
    rw [loadDirActions] at ha
    rcases List.mem_append.mp ha with h | h
    · by_cases hal : allowedFile f
      · rw [if_pos hal] at h
        exact fileLoadActions_shape f a h
      · rw [if_neg hal] at h
        simp at h
    · exact ih a h

/-- `fatalExit` never occurs among the subscription actions. -/
lemma fatal_not_mem_subscribeActions (chs : List String) (m : String) (c : Nat) :
    Action.fatalExit m c ∉ subscribeActions chs := by
  intro h
  rcases List.mem_map.mp h with ⟨ch, _, heq⟩
  exact Action.noConfusion heq

/-- In the non-fatal setup trace for a directory rule path, no `fatalExit`
occurs. -/
lemma fatal_not_mem_mainSetup_dir (cfg : Config) (files : List RuleFile)
    (hp : cfg.rulesPath ≠ "") (hft : ¬(0 < cfg.tags.length ∧ 0 < cfg.names.length))
    (hfs : cfg.fs = FsResolution.dir files) (m : String) (c : Nat) :
    Action.fatalExit m c ∉ mainSetup cfg := by
  unfold mainSetup
  rw [if_neg hp, if_neg hft, hfs]
  intro h
  rcases List.mem_cons.mp h with h | h
  · exact Action.noConfusion h
  rcases List.mem_cons.mp h with h | h
  · exact Action.noConfusion h
  rcases List.mem_append.mp h with h | h
  · rcases loadDirActions_shape files _ h with ⟨n, hn⟩ | ⟨mm, hm⟩
    · exact Action.noConfusion hn
    · exact Action.noConfusion hm
  · exact fatal_not_mem_subscribeActions cfg.channels m c h

/-- In the non-fatal setup trace for a single-file rule path, no
`fatalExit` occurs. -/
lemma fatal_not_mem_mainSetup_file (cfg : Config) (f : RuleFile)
    (hp : cfg.rulesPath ≠ "") (hft : ¬(0 < cfg.tags.length ∧ 0 < cfg.names.length))
    (hfs : cfg.fs = FsResolution.file f) (m : String) (c : Nat) :
    Action.fatalExit m c ∉ mainSetup cfg := by
  unfold mainSetup
  rw [if_neg hp, if_neg hft, hfs]
  intro h
  rcases List.mem_cons.mp h with h | h
  · exact Action.noConfusion h
  rcases List.mem_cons.mp h with h | h
  · exact Action.noConfusion h
  rcases List.mem_append.mp h with h | h
  · rcases fileLoadActions_shape f _ h with ⟨n, hn⟩ | ⟨mm, hm⟩
    · exact Action.noConfusion hn
    · exact Action.noConfusion hm
  · exact fatal_not_mem_subscribeActions cfg.channels m c h

/-- C8: rule loading is best-effort: whether the rule path is a single
file (whids.go:176-180) or a directory whose walk meets a failing file
(whids.go:181-195), a load failure produces an error log line, the
process never reaches a `fatalExit`, and the walk continues with the
remaining files exactly as it would have. -/
theorem rule_load_best_effort (cfg : Config)
    (hp : cfg.rulesPath ≠ "") (hft : ¬(0 < cfg.tags.length ∧ 0 < cfg.names.length)) :
    (∀ f, cfg.fs = FsResolution.file f → f.parses = false →
      (∀ m c, Action.fatalExit m c ∉ mainSetup cfg) ∧
      Action.logError ("Error loading " ++ f.name) ∈ mainSetup cfg) ∧
    (∀ pre f post, cfg.fs = FsResolution.dir (pre ++ f :: post) →
      allowedFile f = true → f.parses = false →
      (∀ m c, Action.fatalExit m c ∉ mainSetup cfg) ∧
      Action.logError ("Error loading " ++ f.name) ∈ mainSetup cfg ∧
      loadDirActions (pre ++ f :: post) =
        loadDirActions pre ++
          (Action.loadFile f.name :: Action.logError ("Error loading " ++ f.name) ::
            loadDirActions post)) := by
  constructor
  · intro f hfs hpar
    refine ⟨fun m c => fatal_not_mem_mainSetup_file cfg f hp hft hfs m c, ?_⟩
    unfold mainSetup
    rw [if_neg hp, if_neg hft, hfs]
    have hmem : Action.logError ("Error loading " ++ f.name) ∈ fileLoadActions f := by
      simp [fileLoadActions, hpar]
    exact List.mem_cons_of_mem _ (List.mem_cons_of_mem _
      (List.mem_append.mpr (Or.inl hmem)))
  · intro pre f post hfs hal hpar
    have hsplit : loadDirActions (pre ++ f :: post) =
        loadDirActions pre ++
          (Action.loadFile f.name :: Action.logError ("Error loading " ++ f.name) ::
            loadDirActions post) := by
      rw [loadDirActions_append]
      rw [loadDirActions, if_pos hal]
      simp [fileLoadActions, hpar]
    refine ⟨fun m c => fatal_not_mem_mainSetup_dir cfg _ hp hft hfs m c, ?_, hsplit⟩
    unfold mainSetup
    rw [if_neg hp, if_neg hft, hfs]
    dsimp only
    rw [hsplit]
    have hmem : Action.logError ("Error loading " ++ f.name) ∈
        loadDirActions pre ++
          (Action.loadFile f.name :: Action.logError ("Error loading " ++ f.name) ::
            loadDirActions post) := by
      refine List.mem_append.mpr (Or.inr ?_)
      exact List.mem_cons_of_mem _ (List.mem_cons_self _ _)
    exact List.mem_cons_of_mem _ (List.mem_cons_of_mem _
      (List.mem_append.mpr (Or.inl hmem)))

/-- C8 witness: on `bestEffortCfg` (walk meets `broken.gen`, which fails
to parse, between two valid files) the failure is logged and no fatal
exit occurs. -/
theorem rule_load_best_effort_witness :
    Action.logError "Error loading broken.gen" ∈ mainSetup bestEffortCfg ∧
    Action.fatalExit "boom" 1 ∉ mainSetup bestEffortCfg := by
  have h := (rule_load_best_effort bestEffortCfg (by decide) (by decide)).2
    [{ name := "a.gen", parses := true, nRules := 1 }]
    { name := "broken.gen", parses := false, nRules := 1 }
    [{ name := "b.gene", parses := true, nRules := 1 }]
    rfl (by decide) rfl
  exact ⟨h.2.1, h.1 "boom" 1⟩

/-- Characterization of the directory-walk fold from any accumulator: the
files passed to `e.Load` are exactly the allow-listed ones in walk order,
and the engine count grows by the rules of the allow-listed files that
parse. -/
lemma loadDirectory_fold (files : List RuleFile) (r : LoadResult) :
    (files.foldl loadStep r).passed
      = r.passed ++ (files.filter allowedFile).map RuleFile.name ∧
    (files.foldl loadStep r).engine.count
      = r.engine.count +
        ((files.filter (fun f => allowedFile f && f.parses)).map RuleFile.nRules).sum := by
  induction files generalizing r with
  | nil => simp
  | cons f rest ih =>
    rw [List.foldl_cons]
    rcases ih (loadStep r f) with ⟨ihp, ihc⟩
    constructor
    · rw [ihp]
      cases hal : allowedFile f
      · simp [loadStep, hal, List.filter_cons]
      · cases hpar : f.parses <;> simp [loadStep, hal, hpar, List.filter_cons]
    · rw [ihc]
      cases hal : allowedFile f
      · simp [loadStep, hal, List.filter_cons]
      · cases hpar : f.parses
        · simp [loadStep, hal, hpar, List.filter_cons]
        · simp [loadStep, hal, hpar, List.filter_cons]
          omega

/-- Sum of a map all of whose values are 1. -/
lemma sum_map_ones {α : Type} (l : List α) (g : α → Nat) (h : ∀ x ∈ l, g x = 1) :
    (l.map g).sum = l.length := by
  induction l with
  | nil => simp
  | cons a rest ih =>
    simp [h a (List.mem_cons_self a rest),
      ih (fun x hx => h x (List.mem_cons_of_mem a hx))]
    omega

/-- C6: during the directory walk (whids.go:181-195) exactly the files
whose extension lies in the allow-set `{.gen, .gene}` are passed to
`e.Load`, and - when each allow-listed file that parses defines one rule,
as in the spec's Scenario A - the final engine count equals the number of
allow-listed files that parse successfully. -/
theorem dir_load_allowed_and_count (files : List RuleFile)
    (h1 : ∀ f ∈ files, allowedFile f = true → f.parses = true → f.nRules = 1) :
    (loadDirectory { count := 0 } files).passed
      = (files.filter allowedFile).map RuleFile.name ∧
    (loadDirectory { count := 0 } files).engine.count
      = (files.filter (fun f => allowedFile f && f.parses)).length := by
  have h := loadDirectory_fold files { engine := { count := 0 }, passed := [] }
  refine ⟨by simpa [loadDirectory] using h.1, ?_⟩
  have hc : (loadDirectory { count := 0 } files).engine.count
      = ((files.filter (fun f => allowedFile f && f.parses)).map RuleFile.nRules).sum := by
    simpa [loadDirectory] using h.2
  rw [hc]
  refine sum_map_ones _ _ ?_
  intro f hf
  rcases List.mem_filter.mp hf with ⟨hmem, hcond⟩
  simp only [Bool.and_eq_true] at hcond
  exact h1 f hmem hcond.1 hcond.2

/-- C6 witness: Scenario A - directory with `a.gen`, `b.gene`, `c.txt`,
each defining one valid rule: only the two allow-listed files reach
`e.Load` and the loaded count is 2. -/
theorem dir_load_allowed_and_count_witness :
    (loadDirectory { count := 0 } scenarioA).passed = ["a.gen", "b.gene"] ∧
    (loadDirectory { count := 0 } scenarioA).engine.count = 2 := by
  have h := dir_load_allowed_and_count scenarioA (by decide)
  exact ⟨by rw [h.1]; decide, by rw [h.2]; decide⟩

/-- Conservation along any broadcast run: the workers are always split
between waiting and done, and every completed delivery consumed exactly
one pending token. -/
lemma breach_invariant (n : Nat) (ta tb : Bool) (s : BState)
    (h : BReach (initBroadcast n ta tb) s) :
    s.done + s.waiting = n ∧
    s.pa + s.pb + s.done = (if ta then n else 0) + (if tb then n else 0) := by
  induction h with
  | refl => simp [initBroadcast]
  | tail hr hs ih =>
    rcases ih with ⟨ih1, ih2⟩
    cases hs with
    | timer pa pb w d => simp_all; omega
    | intr pa pb w d => simp_all; omega

/-- As long as a worker is blocked and a token is pending, a rendezvous is
possible: no worker is starved while tokens remain. -/
lemma bstep_exists (s : BState) (hw : 0 < s.waiting) (hp : 0 < s.pa + s.pb) :
    ∃ t, BStep s t := by
  obtain ⟨pa, pb, w, d⟩ := s
  simp only at hw hp
  cases w with
  | zero => omega
  | succ w2 =>
    cases pa with
    | zero =>
      cases pb with
      | zero => omega
      | succ pb2 => exact ⟨_, BStep.intr 0 pb2 w2 d⟩
    | succ pa2 => exact ⟨_, BStep.timer pa2 pb w2 d⟩

/-- C3: in the rendezvous model of the unbuffered `signals` channel
(whids.go:202-222, one token per configured channel from each fired
trigger, one blocking receive per worker), every maximal run from a state
where at least one trigger fired ends with every one of the `n` workers
having observed exactly one stop token (`waiting = 0`, `done = n`): no
deadlock of workers, no double delivery, no starvation.  The surplus
tokens of a second trigger are never delivered to anyone - their sends
stay pending forever - so they have no observable effect:
`pa + pb = tokens sent by fired triggers - n` in any terminal state. -/
theorem shutdown_broadcast_one_token_each (n : Nat) (ta tb : Bool) (s : BState)
    (hfire : ta = true ∨ tb = true)
    (hreach : BReach (initBroadcast n ta tb) s)
    (hterm : BTerminal s) :
    s.waiting = 0 ∧ s.done = n ∧
    s.pa + s.pb + n = (if ta then n else 0) + (if tb then n else 0) := by
  obtain ⟨h1, h2⟩ := breach_invariant n ta tb s hreach
  have hT : n ≤ (if ta then n else 0) + (if tb then n else 0) := by
    rcases hfire with h | h
    · simp only [h, if_true]
      exact Nat.le_add_right n _
    · simp only [h, if_true]
      exact Nat.le_add_left n _
  by_cases hw : s.waiting = 0
  · exact ⟨hw, by omega, by omega⟩
  · exfalso
    have hwpos : 0 < s.waiting := Nat.pos_of_ne_zero hw
    have hppos : 0 < s.pa + s.pb := by omega
    obtain ⟨t, ht⟩ := bstep_exists s hwpos hppos
    exact hterm t ht

/-- C3 witness: two workers, both triggers fired; after two rendezvous
from the timer's tokens the run is terminal, both workers are done, and
the interrupt's two surplus tokens were never delivered. -/
theorem shutdown_broadcast_one_token_each_witness :
    BReach (initBroadcast 2 true true) { pa := 0, pb := 2, waiting := 0, done := 2 } ∧
    ({ pa := 0, pb := 2, waiting := 0, done := 2 } : BState).waiting = 0 ∧
    ({ pa := 0, pb := 2, waiting := 0, done := 2 } : BState).done = 2 ∧
    ({ pa := 0, pb := 2, waiting := 0, done := 2 } : BState).pa
        + ({ pa := 0, pb := 2, waiting := 0, done := 2 } : BState).pb + 2
      = (if true then 2 else 0) + (if true then 2 else 0) := by
  have h1 : BStep (initBroadcast 2 true true) { pa := 1, pb := 2, waiting := 1, done := 1 } :=
    BStep.timer 1 2 1 0
  have h2 : BStep { pa := 1, pb := 2, waiting := 1, done := 1 }
      { pa := 0, pb := 2, waiting := 0, done := 2 } :=
    BStep.timer 0 2 0 1
  have hreach : BReach (initBroadcast 2 true true)
      { pa := 0, pb := 2, waiting := 0, done := 2 } :=
    BReach.tail (BReach.tail (BReach.refl _) h1) h2
  have hterm : BTerminal { pa := 0, pb := 2, waiting := 0, done := 2 } := by
    intro t ht
    cases ht
  exact ⟨hreach,
    shutdown_broadcast_one_token_each 2 true true _ (Or.inl rfl) hreach hterm⟩

/-- C4 (code bug): `eventCnt++` at whids.go:251 is an unsynchronized
read-modify-write executed by every worker goroutine on the shared
variable of whids.go:203.  In the two-phase increment model, two workers
(N = 2) each doing one increment (K = 1) can interleave as
read0-read1-write0-write1 and lose an update: the final counter is 1, not
N x K = 2 - while the same two increments serialized
(read0-write0-read1-write1) do give 2.  The claim's premise "every update
... uses an atomic or lock-protected discipline" is false of the code, and
the spec itself calls unsynchronized increments a correctness bug. -/
theorem unsynchronized_increment_loses_update :
    (raceRun (initRace 2 1) [0, 1, 0, 1]).counter = 1 ∧
    (raceRun (initRace 2 1) [0, 1, 0, 1]).workers
      = [{ temp := none, remaining := 0 }, { temp := none, remaining := 0 }] ∧
    (raceRun (initRace 2 1) [0, 0, 1, 1]).counter = 2 := by
  decide

end Whids
